import Mathlib

/-!
Shallow embedding of the task-board service in src/src/main.rs (the
Eisenhower-matrix board).  Each HTTP handler becomes a pure function on an
explicit store state; SQLite rows become a list of task records; the SQL
clauses UPDATE ... WHERE id, SELECT ... WHERE id, and MAX(position) become
the corresponding list operations.  A Nat parameter stands in for the wall
clock consulted by datetime('now') / Utc::now().
-/

namespace Eisenpower

/-- Category tag of a task (quadrant color source), mirroring enum TaskType. -/
inductive TaskType where
  | UrgentImportant
  | UrgentNotImportant
  | NotUrgentImportant
  | NotUrgentNotImportant
deriving DecidableEq, Repr

/-- Container column of a task, mirroring enum Bucket. -/
inductive Bucket where
  | UrgentImportant
  | UrgentNotImportant
  | NotUrgentImportant
  | NotUrgentNotImportant
  | Today
deriving DecidableEq, Repr

/-- Mirrors TaskType::from_bucket in main.rs. -/
def TaskType.from_bucket : Bucket → TaskType
  | Bucket.UrgentImportant => TaskType.UrgentImportant
  | Bucket.UrgentNotImportant => TaskType.UrgentNotImportant
  | Bucket.NotUrgentImportant => TaskType.NotUrgentImportant
  | Bucket.NotUrgentNotImportant => TaskType.NotUrgentNotImportant
  | Bucket.Today => TaskType.UrgentImportant

/-- Mirrors Bucket::as_str in main.rs. -/
def Bucket.as_str : Bucket → String
  | Bucket.UrgentImportant => "UrgentImportant"
  | Bucket.UrgentNotImportant => "UrgentNotImportant"
  | Bucket.NotUrgentImportant => "NotUrgentImportant"
  | Bucket.NotUrgentNotImportant => "NotUrgentNotImportant"
  | Bucket.Today => "Today"

/-- Mirrors fn parse_bucket in main.rs: the five recognized tokens, none otherwise. -/
def parse_bucket (s : String) : Option Bucket :=
  if s = "UrgentImportant" then some Bucket.UrgentImportant
  else if s = "UrgentNotImportant" then some Bucket.UrgentNotImportant
  else if s = "NotUrgentImportant" then some Bucket.NotUrgentImportant
  else if s = "NotUrgentNotImportant" then some Bucket.NotUrgentNotImportant
  else if s = "Today" then some Bucket.Today
  else none

/-- A task row, mirroring struct Task in main.rs (timestamps as abstract Nat ticks). -/
structure Task where
  id : Int
  title : String
  task_type : TaskType
  bucket : Bucket
  completed : Bool
  position : Int
  created_at : Nat
  updated_at : Nat
deriving DecidableEq, Repr

/-- The task table plus the AUTOINCREMENT counter of the id column. -/
structure Store where
  rows : List Task
  next_id : Int
deriving DecidableEq, Repr

/-- Mirrors SELECT COALESCE(MAX(position), 0) FROM tasks WHERE bucket = b:
the maximum position among rows of bucket b, 0 when the bucket is empty. -/
def max_position (rows : List Task) (b : Bucket) : Int :=
  match (rows.filter (fun t => t.bucket = b)).map (fun t => t.position) with
  | [] => 0
  | p :: ps => ps.foldl max p

/-- Model of Rust str::trim: strip leading and trailing whitespace
characters from both ends of the string. -/
def trim (s : String) : String :=
  String.mk (((s.data.dropWhile Char.isWhitespace).reverse.dropWhile
    Char.isWhitespace).reverse)

/-- Semantics of UPDATE tasks SET ... WHERE id = ?1: rewrite every row whose
id matches, leave the rest untouched. -/
def updateWhere (id : Int) (f : Task → Task) (rows : List Task) : List Task :=
  rows.map (fun t => if t.id = id then f t else t)

/-- Outcome of the add_task handler: 400 Title required, or 200 with the task html. -/
inductive AddResult where
  | badRequest
  | created (t : Task)
deriving DecidableEq, Repr

/-- Mirrors async fn add_task in main.rs: reject a title that trims empty,
default an unrecognized bucket token to UrgentImportant, compute the
position as max-in-bucket + 1, and insert the row. -/
def add_task (title bucketStr : String) (now : Nat) (st : Store) : AddResult × Store :=
  if trim title = "" then (AddResult.badRequest, st)
  else
    let bucket := (parse_bucket bucketStr).getD Bucket.UrgentImportant
    let task_type := if bucket = Bucket.Today then TaskType.UrgentImportant
                     else TaskType.from_bucket bucket
    let pos := max_position st.rows bucket + 1
    let t : Task := { id := st.next_id, title := trim title, task_type := task_type,
                      bucket := bucket, completed := false, position := pos,
                      created_at := now, updated_at := now }
    (AddResult.created t, { rows := st.rows ++ [t], next_id := st.next_id + 1 })

/-- Outcome of the toggle_task handler: 200 with empty html, or 404. -/
inductive ToggleResult where
  | html
  | notFound
deriving DecidableEq, Repr

/-- HTTP status code of a toggle_task response. -/
def ToggleResult.status : ToggleResult → Nat
  | ToggleResult.html => 200
  | ToggleResult.notFound => 404

/-- Mirrors async fn toggle_task in main.rs: UPDATE tasks SET
completed = 1 - completed, updated_at = now WHERE id, then SELECT id to
decide between 200 and 404. -/
def toggle_task (id : Int) (now : Nat) (st : Store) : ToggleResult × Store :=
  let rows := updateWhere id
    (fun t => { t with completed := !t.completed, updated_at := now }) st.rows
  let res : ToggleResult :=
    if rows.any (fun t => t.id = id) then ToggleResult.html else ToggleResult.notFound
  (res, { st with rows := rows })

/-- Outcome of the update_task handler: 204 when a title was supplied, 400 otherwise. -/
inductive UpdateResult where
  | noContent
  | badRequest
deriving DecidableEq, Repr

/-- Mirrors async fn update_task in main.rs: when a title is supplied,
UPDATE tasks SET title = trim(title), updated_at = now WHERE id and answer
204, with no emptiness check on the trimmed title; otherwise answer 400. -/
def update_task (id : Int) (otitle : Option String) (now : Nat) (st : Store) :
    UpdateResult × Store :=
  match otitle with
  | some title =>
      (UpdateResult.noContent,
       { st with rows := (updateWhere id
           (fun t => { t with title := trim title, updated_at := now }) st.rows) })
  | none => (UpdateResult.badRequest, st)

/-- The body of the reorder loop in async fn reorder_bucket: for the k-th id
of the list (0-based loop counter i), UPDATE tasks SET position = i + 1,
updated_at = now WHERE id = that id. -/
def renumber (now : Nat) : List Int → Nat → List Task → List Task
  | [], _, rows => rows
  | id :: rest, i, rows =>
      renumber now rest (i + 1)
        (updateWhere id
          (fun t => { t with position := (i : Int) + 1, updated_at := now }) rows)

/-- Mirrors async fn reorder_bucket in main.rs: the bucket token is parsed
into an unused binding (with the UrgentImportant default) and the loop
renumbers the listed ids from 1; the handler always answers 204. -/
def reorder_bucket (bucketStr : String) (orderedIds : List Int) (now : Nat) (st : Store) :
    Store :=
  let _b := (parse_bucket bucketStr).getD Bucket.UrgentImportant
  { st with rows := renumber now orderedIds 0 st.rows }

/-- Outcome of the move_task handler: 200 with the refetched task html, or 204. -/
inductive MoveResult where
  | html (t : Task)
  | noContent
deriving DecidableEq, Repr

/-- HTTP status code of a move_task response. -/
def MoveResult.status : MoveResult → Nat
  | MoveResult.html _ => 200
  | MoveResult.noContent => 204

/-- Mirrors async fn move_task in main.rs: default an unrecognized bucket
token to UrgentImportant; for a quadrant target also overwrite task_type,
for Today leave task_type alone; set position = index + 1 (index defaults
to 0); then refetch the row by id, answering 200 with it when it exists and
204 otherwise. -/
def move_task (id : Int) (bucketStr : String) (oindex : Option Nat) (now : Nat)
    (st : Store) : MoveResult × Store :=
  let new_bucket := (parse_bucket bucketStr).getD Bucket.UrgentImportant
  let new_task_type : Option TaskType :=
    match new_bucket with
    | Bucket.UrgentImportant => some TaskType.UrgentImportant
    | Bucket.UrgentNotImportant => some TaskType.UrgentNotImportant
    | Bucket.NotUrgentImportant => some TaskType.NotUrgentImportant
    | Bucket.NotUrgentNotImportant => some TaskType.NotUrgentNotImportant
    | Bucket.Today => none
  let pos : Int := ((oindex.getD 0 : Nat) : Int) + 1
  let rows : List Task :=
    match new_task_type with
    | some tp =>
        updateWhere id
          (fun t => { t with bucket := new_bucket, task_type := tp, position := pos,
                             updated_at := now }) st.rows
    | none =>
        updateWhere id
          (fun t => { t with bucket := new_bucket, position := pos,
                             updated_at := now }) st.rows
  let res : MoveResult :=
    match rows.find? (fun t => t.id = id) with
    | some t => MoveResult.html { t with created_at := now, updated_at := now }
    | none => MoveResult.noContent
  (res, { st with rows := rows })

/-- Cumulative effect of the reorder loop on one row: the row is threaded
through the per-iteration updates for the suffix of ids starting at loop
counter i. -/
def step (now : Nat) : List Int → Nat → Task → Task
  | [], _, t => t
  | id :: rest, i, t =>
      step now rest (i + 1)
        (if t.id = id then { t with position := (i : Int) + 1, updated_at := now } else t)

/-- Loop counter of the last occurrence of x in the id list, where the head
is processed at counter i; none when x does not occur. -/
def stepPos (x : Int) : List Int → Nat → Option Nat
  | [], _ => none
  | id :: rest, i =>
      match stepPos x rest (i + 1) with
      | some k => some k
      | none => if x = id then some i else none

/-- Fixture task A, residing in the UrgentImportant bucket at position 1. -/
def taskA : Task :=
  { id := 1, title := "A", task_type := TaskType.UrgentImportant,
    bucket := Bucket.UrgentImportant, completed := false, position := 1,
    created_at := 0, updated_at := 0 }

/-- Fixture task B, position 2 in UrgentImportant. -/
def taskB : Task := { taskA with id := 2, title := "B", position := 2 }

/-- Fixture task C, position 3 in UrgentImportant. -/
def taskC : Task := { taskA with id := 3, title := "C", position := 3 }

/-- Fixture store holding A, B, C in the UrgentImportant bucket. -/
def sampleStore : Store := { rows := [taskA, taskB, taskC], next_id := 4 }

/-! Helper lemmas about updateWhere, renumber and step. -/

/-- Finding the id after an UPDATE ... WHERE id yields the rewritten row,
provided the rewrite keeps the id. -/
theorem find?_updateWhere (id : Int) (f : Task → Task)
    (hf : ∀ t, (f t).id = t.id) (l : List Task) (t : Task)
    (h : l.find? (fun r => r.id = id) = some t) :
    (updateWhere id f l).find? (fun r => r.id = id) = some (f t) := by
  unfold updateWhere
  rw [List.find?_map]
  have hpg : ((fun r : Task => decide (r.id = id)) ∘ (fun r => if r.id = id then f r else r))
      = fun r : Task => decide (r.id = id) := by
    funext r
    by_cases hr : r.id = id
    · simp [hr, hf]
    · simp [hr]
  rw [hpg, h, Option.map_some']
  have hps := @List.find?_some Task (fun r => decide (r.id = id)) t l h
  have ht : t.id = id := of_decide_eq_true hps
  rw [if_pos ht]

/-- Finding an id after any id-preserving row rewrite yields the rewritten
row. -/
theorem find?_map_id_preserving (g : Task → Task) (hg : ∀ t, (g t).id = t.id) (x : Int)
    (l : List Task) (t : Task) (h : l.find? (fun r => r.id = x) = some t) :
    (l.map g).find? (fun r => r.id = x) = some (g t) := by
  rw [List.find?_map]
  have hpg : ((fun r : Task => decide (r.id = x)) ∘ g) = fun r : Task => decide (r.id = x) := by
    funext r
    simp [hg]
  rw [hpg, h, Option.map_some']

/-- An UPDATE ... WHERE id that matches no row leaves the table unchanged. -/
theorem updateWhere_of_absent (id : Int) (f : Task → Task) (l : List Task)
    (h : ∀ t ∈ l, t.id ≠ id) : updateWhere id f l = l := by
  unfold updateWhere
  have he : ∀ t ∈ l, (if t.id = id then f t else t) = t := fun t ht => if_neg (h t ht)
  rw [List.map_congr_left he, List.map_id']

/-- Rows whose id differs survive an UPDATE ... WHERE id untouched. -/
theorem mem_updateWhere_of_ne (id : Int) (f : Task → Task) (l : List Task) (t : Task)
    (ht : t ∈ l) (hne : t.id ≠ id) : t ∈ updateWhere id f l := by
  have h2 : (if t.id = id then f t else t) ∈ updateWhere id f l :=
    List.mem_map_of_mem _ ht
  rwa [if_neg hne] at h2

/-- Finding an id that no row carries fails. -/
theorem find?_none_of_absent (id : Int) (l : List Task)
    (h : ∀ t ∈ l, t.id ≠ id) : l.find? (fun r => r.id = id) = none :=
  List.find?_eq_none.mpr (fun x hx => by simpa using h x hx)

/-- The id column is untouched by an id-preserving UPDATE ... WHERE id. -/
theorem ids_updateWhere (id : Int) (f : Task → Task)
    (hf : ∀ t, (f t).id = t.id) (l : List Task) :
    (updateWhere id f l).map (fun t => t.id) = l.map (fun t => t.id) := by
  unfold updateWhere
  rw [List.map_map]
  apply List.map_congr_left
  intro t _
  by_cases hr : t.id = id
  · simp [hr, hf]
  · simp [hr]

/-- The existence check by id is invariant under an id-preserving
UPDATE ... WHERE id. -/
theorem any_updateWhere (id : Int) (f : Task → Task)
    (hf : ∀ t, (f t).id = t.id) (l : List Task) :
    (updateWhere id f l).any (fun r => r.id = id) = l.any (fun r => r.id = id) := by
  unfold updateWhere
  rw [List.any_map]
  congr 1
  funext r
  by_cases hr : r.id = id
  · simp [hr, hf]
  · simp [hr]

/-- A successful find? witnesses the existence check. -/
theorem any_of_find? (id : Int) (l : List Task) (t : Task)
    (h : l.find? (fun r => r.id = id) = some t) :
    l.any (fun r => r.id = id) = true :=
  List.any_eq_true.mpr
    ⟨t, List.mem_of_find?_eq_some h,
     @List.find?_some Task (fun r => decide (r.id = id)) t l h⟩

/-- The reorder loop is the per-row composition of its iterations. -/
theorem renumber_eq_map (now : Nat) :
    ∀ (ids : List Int) (i : Nat) (rows : List Task),
    renumber now ids i rows = rows.map (step now ids i) := by
  intro ids
  induction ids with
  | nil =>
      intro i rows
      simp only [renumber, step]
      exact (List.map_id' rows).symm
  | cons id rest ih =>
      intro i rows
      simp only [renumber, updateWhere, ih, List.map_map]
      apply List.map_congr_left
      intro a _
      rfl

/-- Effect of the whole reorder loop on a single row: the row gets position
k + 1 for the loop counter k of the last occurrence of its id, and is
untouched when its id is not listed. -/
theorem step_spec (now : Nat) :
    ∀ (ids : List Int) (i : Nat) (t : Task),
    step now ids i t =
      (match stepPos t.id ids i with
       | some k => { t with position := (k : Int) + 1, updated_at := now }
       | none => t) := by
  intro ids
  induction ids with
  | nil => intro i t; rfl
  | cons id rest ih =>
      intro i t
      by_cases h : t.id = id
      · have e1 : step now (id :: rest) i t
            = step now rest (i + 1) { t with position := (i : Int) + 1, updated_at := now } := by
          simp only [step, if_pos h]
        rw [e1, ih]
        cases hsp : stepPos t.id rest (i + 1) with
        | some k => simp only [stepPos, hsp]
        | none => simp only [stepPos, hsp, if_pos h]
      · have e1 : step now (id :: rest) i t = step now rest (i + 1) t := by
          simp only [step, if_neg h]
        rw [e1, ih]
        cases hsp : stepPos t.id rest (i + 1) with
        | some k => simp only [stepPos, hsp]
        | none => simp only [stepPos, hsp, if_neg h]

/-- The reorder loop never changes the id of a row. -/
theorem step_id (now : Nat) (ids : List Int) (i : Nat) (t : Task) :
    (step now ids i t).id = t.id := by
  rw [step_spec]
  cases stepPos t.id ids i <;> rfl

/-- An id that does not occur in the list has no last occurrence. -/
theorem stepPos_of_not_mem (x : Int) :
    ∀ (ids : List Int), x ∉ ids → ∀ i, stepPos x ids i = none := by
  intro ids
  induction ids with
  | nil => intro _ i; rfl
  | cons id rest ih =>
      intro h i
      have h1 : x ≠ id := by
        intro he; exact h (by simp [he])
      have h2 : x ∉ rest := fun hm => h (List.mem_cons_of_mem _ hm)
      simp only [stepPos, ih h2, if_neg h1]

/-- A row whose id is not listed survives the reorder loop untouched. -/
theorem step_of_not_mem (now : Nat) (ids : List Int) (i : Nat) (t : Task)
    (h : t.id ∉ ids) : step now ids i t = t := by
  rw [step_spec, stepPos_of_not_mem t.id ids h i]

/-- On a duplicate-free list, the last occurrence of the j-th id is at loop
counter i + j. -/
theorem stepPos_get :
    ∀ (ids : List Int) (j : Nat) (hj : j < ids.length), ids.Nodup →
    ∀ i, stepPos (ids.get ⟨j, hj⟩) ids i = some (i + j) := by
  intro ids
  induction ids with
  | nil => intro j hj; exact absurd hj (by simp)
  | cons id rest ih =>
      intro j hj hnd i
      rcases List.nodup_cons.mp hnd with ⟨hnm, hnd2⟩
      cases j with
      | zero =>
          have hrest : stepPos id rest (i + 1) = none :=
            stepPos_of_not_mem id rest hnm (i + 1)
          simp [List.get, stepPos, hrest]
      | succ j2 =>
          have hj2 : j2 < rest.length := by
            have := hj; simp only [List.length_cons] at this; omega
          have hx : (id :: rest).get ⟨j2 + 1, hj⟩ = rest.get ⟨j2, hj2⟩ := rfl
          have hmem : rest.get ⟨j2, hj2⟩ ∈ rest := List.get_mem rest j2 hj2
          have hne : rest.get ⟨j2, hj2⟩ ≠ id := fun he => hnm (he ▸ hmem)
          have hrec := ih j2 hj2 hnd2 (i + 1)
          rw [hx]
          simp only [stepPos, hrec]
          congr 1
          omega

/-- Replaying the reorder loop leaves every position where the first replay
put it, whatever the two wall-clock readings were. -/
theorem step_position_idem (now1 now2 : Nat) (ids : List Int) (i : Nat) (t : Task) :
    (step now2 ids i (step now1 ids i t)).position = (step now1 ids i t).position := by
  have hid : (step now1 ids i t).id = t.id := step_id now1 ids i t
  rw [step_spec now2, hid, step_spec now1]
  cases h : stepPos t.id ids i with
  | none => simp [h]
  | some k => simp [h]

/-- Fixture task residing in the Today bucket while carrying the
NotUrgentImportant category. -/
def taskToday : Task :=
  { taskA with id := 7, title := "T", bucket := Bucket.Today,
               task_type := TaskType.NotUrgentImportant, position := 1 }

/-! Claim theorems. -/

/-- C6: createTask with a title that trims to the empty string fails with
the validation error (400 Title required) and performs no store mutation. -/
theorem add_task_empty_title_rejected (title bucketStr : String) (now : Nat) (st : Store)
    (h : trim title = "") :
    add_task title bucketStr now st = (AddResult.badRequest, st) := by
  simp [add_task, h]

/-- Witness for add_task_empty_title_rejected at a whitespace-only title. -/
theorem add_task_empty_title_rejected_witness :
    (trim "   " = "") ∧
    add_task "   " "Today" 3 sampleStore = (AddResult.badRequest, sampleStore) :=
  ⟨by decide, add_task_empty_title_rejected "   " "Today" 3 sampleStore (by decide)⟩

/-- C5 counterexample: the unrecognized bucket token Bogus makes neither
createTask nor moveTask fail; createTask proceeds and files the task under
UrgentImportant, and moveTask moves a Today task into UrgentImportant. -/
theorem unknown_bucket_not_rejected_cex :
    parse_bucket "Bogus" = none ∧
    (add_task "Milk" "Bogus" 0 { rows := [], next_id := 1 }).1 =
      AddResult.created
        { id := 1, title := "Milk", task_type := TaskType.UrgentImportant,
          bucket := Bucket.UrgentImportant, completed := false, position := 1,
          created_at := 0, updated_at := 0 } ∧
    (move_task 7 "Bogus" none 9 { rows := [taskToday], next_id := 8 }).2.rows =
      [{ taskToday with bucket := Bucket.UrgentImportant,
                        task_type := TaskType.UrgentImportant, position := 1,
                        updated_at := 9 }] := by
  refine ⟨rfl, ?_, ?_⟩ <;> rfl

/-- C5 amended: on an unrecognized bucket token, createTask and moveTask do
not fail with InvalidBucket; they behave exactly as if the token had named
the default bucket UrgentImportant. -/
theorem unknown_bucket_defaults (bucketStr : String) (h : parse_bucket bucketStr = none) :
    (∀ title now st,
       add_task title bucketStr now st = add_task title "UrgentImportant" now st) ∧
    (∀ id oindex now st,
       move_task id bucketStr oindex now st = move_task id "UrgentImportant" oindex now st) := by
  have hp : parse_bucket "UrgentImportant" = some Bucket.UrgentImportant := rfl
  constructor
  · intro title now st
    unfold add_task
    rw [h, hp]
    rfl
  · intro id oindex now st
    unfold move_task
    rw [h, hp]
    rfl

/-- Witness for unknown_bucket_defaults at the token Bogus. -/
theorem unknown_bucket_defaults_witness :
    parse_bucket "Bogus" = none ∧
    add_task "Milk" "Bogus" 0 sampleStore = add_task "Milk" "UrgentImportant" 0 sampleStore ∧
    move_task 1 "Bogus" none 5 sampleStore = move_task 1 "UrgentImportant" none 5 sampleStore :=
  ⟨rfl, (unknown_bucket_defaults "Bogus" rfl).1 "Milk" 0 sampleStore,
        (unknown_bucket_defaults "Bogus" rfl).2 1 none 5 sampleStore⟩

/-- C10: the bucket argument of reorderBucket has no effect on the result,
and a listed task is renumbered to index + 1 even when it resides in a
bucket other than the named one. -/
theorem reorder_ignores_bucket (bs1 bs2 : String) (ids : List Int) (now : Nat) (st : Store) :
    reorder_bucket bs1 ids now st = reorder_bucket bs2 ids now st ∧
    (ids.Nodup → ∀ (j : Nat) (hj : j < ids.length) (t : Task), t ∈ st.rows →
      t.id = ids.get ⟨j, hj⟩ →
      { t with position := (j : Int) + 1, updated_at := now }
        ∈ (reorder_bucket bs1 ids now st).rows) := by
  constructor
  · rfl
  · intro hnd j hj t hmem hid
    have hrows : (reorder_bucket bs1 ids now st).rows = st.rows.map (step now ids 0) :=
      renumber_eq_map now ids 0 st.rows
    rw [hrows]
    have hsp : stepPos t.id ids 0 = some j := by
      rw [hid]
      have := stepPos_get ids j hj hnd 0
      rwa [Nat.zero_add] at this
    have hstep : step now ids 0 t = { t with position := (j : Int) + 1, updated_at := now } := by
      rw [step_spec, hsp]
    exact hstep ▸ List.mem_map_of_mem _ hmem

/-- Witness for reorder_ignores_bucket: the Today-bucket string renumbers a
task sitting in UrgentImportant. -/
theorem reorder_ignores_bucket_witness :
    reorder_bucket "Today" [3, 1, 2] 7 sampleStore =
      reorder_bucket "NotUrgentImportant" [3, 1, 2] 7 sampleStore ∧
    ({ taskA with position := (1 : Int) + 1, updated_at := 7 }
        ∈ (reorder_bucket "Today" [3, 1, 2] 7 sampleStore).rows) :=
  ⟨(reorder_ignores_bucket "Today" "NotUrgentImportant" [3, 1, 2] 7 sampleStore).1,
   (reorder_ignores_bucket "Today" "NotUrgentImportant" [3, 1, 2] 7 sampleStore).2
     (by decide) 1 (by decide) taskA (by simp [sampleStore]) rfl⟩

/-- C3: reorderBucket is idempotent — applying it twice with the same id
list yields the same id/position table as applying it once, for any pair of
wall-clock readings. -/
theorem reorder_idempotent (bs : String) (ids : List Int) (now1 now2 : Nat) (st : Store) :
    (reorder_bucket bs ids now2 (reorder_bucket bs ids now1 st)).rows.map
        (fun t => (t.id, t.position)) =
    (reorder_bucket bs ids now1 st).rows.map (fun t => (t.id, t.position)) := by
  have h1 : (reorder_bucket bs ids now1 st).rows = st.rows.map (step now1 ids 0) :=
    renumber_eq_map now1 ids 0 st.rows
  have h2 : (reorder_bucket bs ids now2 (reorder_bucket bs ids now1 st)).rows
      = (reorder_bucket bs ids now1 st).rows.map (step now2 ids 0) :=
    renumber_eq_map now2 ids 0 _
  rw [h2, h1, List.map_map, List.map_map, List.map_map]
  apply List.map_congr_left
  intro a _
  simp only [Function.comp]
  rw [step_id, step_position_idem]

/-- Rows component of a move_task result for target Today: bucket and
position are overwritten, task_type is untouched. -/
theorem move_task_rows_today (id : Int) (oindex : Option Nat) (now : Nat) (st : Store) :
    (move_task id "Today" oindex now st).2.rows =
      updateWhere id
        (fun t => { t with bucket := Bucket.Today, position := ((oindex.getD 0 : Nat) : Int) + 1, updated_at := now })
        st.rows := rfl

/-- Rows component of a move_task result for a quadrant target: bucket,
task_type and position are all overwritten. -/
theorem move_task_rows_quadrant (q : Bucket) (hq : q ≠ Bucket.Today)
    (id : Int) (oindex : Option Nat) (now : Nat) (st : Store) :
    (move_task id (Bucket.as_str q) oindex now st).2.rows =
      updateWhere id
        (fun t => { t with bucket := q, task_type := TaskType.from_bucket q, position := ((oindex.getD 0 : Nat) : Int) + 1, updated_at := now })
        st.rows := by
  cases q with
  | UrgentImportant => rfl
  | UrgentNotImportant => rfl
  | NotUrgentImportant => rfl
  | NotUrgentNotImportant => rfl
  | Today => exact absurd rfl hq

/-- C1: moving a stored task to Today keeps its category (task_type), while
moving it to a quadrant bucket forces the category to that quadrant,
whatever the prior category was; position and updated_at are set as the
handler prescribes. -/
theorem move_category_rule (st : Store) (id : Int) (oindex : Option Nat) (now : Nat)
    (t : Task) (hfind : st.rows.find? (fun r => r.id = id) = some t) :
    (move_task id "Today" oindex now st).2.rows.find? (fun r => r.id = id) =
      some { t with bucket := Bucket.Today, position := ((oindex.getD 0 : Nat) : Int) + 1, updated_at := now } ∧
    (∀ q : Bucket, q ≠ Bucket.Today →
      (move_task id (Bucket.as_str q) oindex now st).2.rows.find? (fun r => r.id = id) =
        some { t with bucket := q, task_type := TaskType.from_bucket q, position := ((oindex.getD 0 : Nat) : Int) + 1, updated_at := now }) := by
  constructor
  · rw [move_task_rows_today]
    exact find?_updateWhere id
      (fun u => { u with bucket := Bucket.Today, position := ((oindex.getD 0 : Nat) : Int) + 1, updated_at := now })
      (fun u => rfl) st.rows t hfind
  · intro q hq
    rw [move_task_rows_quadrant q hq]
    exact find?_updateWhere id
      (fun u => { u with bucket := q, task_type := TaskType.from_bucket q, position := ((oindex.getD 0 : Nat) : Int) + 1, updated_at := now })
      (fun u => rfl) st.rows t hfind

/-- Witness for move_category_rule: a Today-bucket task with category
NotUrgentImportant keeps that category when moved within Today and adopts
UrgentImportant when moved to that quadrant. -/
theorem move_category_rule_witness :
    (move_task 7 "Today" (some 2) 9 { rows := [taskToday], next_id := 8 }).2.rows.find?
        (fun r => r.id = 7) =
      some { taskToday with bucket := Bucket.Today, position := (((some 2 : Option Nat).getD 0 : Nat) : Int) + 1, updated_at := 9 } ∧
    (move_task 7 (Bucket.as_str Bucket.UrgentImportant) (some 2) 9
        { rows := [taskToday], next_id := 8 }).2.rows.find? (fun r => r.id = 7) =
      some { taskToday with bucket := Bucket.UrgentImportant, task_type := TaskType.from_bucket Bucket.UrgentImportant, position := (((some 2 : Option Nat).getD 0 : Nat) : Int) + 1, updated_at := 9 } :=
  ⟨(move_category_rule { rows := [taskToday], next_id := 8 } 7 (some 2) 9 taskToday rfl).1,
   (move_category_rule { rows := [taskToday], next_id := 8 } 7 (some 2) 9 taskToday rfl).2
     Bucket.UrgentImportant (by decide)⟩

/-- C2: reorderBucket assigns position index + 1 to every listed id that
exists in the store, leaves unlisted rows untouched, and changes no id
(ids absent from the store are skipped without error — the handler is total
and inserts nothing). -/
theorem reorder_assigns_positions (bs : String) (ids : List Int) (now : Nat) (st : Store)
    (hnd : ids.Nodup) :
    (∀ (j : Nat) (hj : j < ids.length) (t : Task),
       st.rows.find? (fun r => r.id = ids.get ⟨j, hj⟩) = some t →
       (reorder_bucket bs ids now st).rows.find? (fun r => r.id = ids.get ⟨j, hj⟩) =
         some { t with position := (j : Int) + 1, updated_at := now }) ∧
    (∀ t ∈ st.rows, t.id ∉ ids → t ∈ (reorder_bucket bs ids now st).rows) ∧
    (reorder_bucket bs ids now st).rows.map (fun t => t.id) = st.rows.map (fun t => t.id) := by
  have hrows : (reorder_bucket bs ids now st).rows = st.rows.map (step now ids 0) :=
    renumber_eq_map now ids 0 st.rows
  refine ⟨?_, ?_, ?_⟩
  · intro j hj t ht
    rw [hrows]
    rw [find?_map_id_preserving (step now ids 0) (step_id now ids 0) _ st.rows t ht]
    have htid : t.id = ids.get ⟨j, hj⟩ :=
      of_decide_eq_true
        (@List.find?_some Task (fun r => decide (r.id = ids.get ⟨j, hj⟩)) t st.rows ht)
    congr 1
    rw [step_spec]
    have hsp : stepPos t.id ids 0 = some j := by
      rw [htid]
      have hg := stepPos_get ids j hj hnd 0
      rwa [Nat.zero_add] at hg
    rw [hsp]
  · intro t hmem hnin
    rw [hrows]
    have hm := List.mem_map_of_mem (step now ids 0) hmem
    rwa [step_of_not_mem now ids 0 t hnin] at hm
  · rw [hrows, List.map_map]
    apply List.map_congr_left
    intro a _
    exact step_id now ids 0 a

/-- Witness for reorder_assigns_positions: the spec scenario — bucket
UrgentImportant holds A(1), B(2), C(3); reordering with [C, A, B] puts C at
1, A at 2, B at 3. -/
theorem reorder_assigns_positions_witness :
    ([3, 1, 2] : List Int).Nodup ∧
    (reorder_bucket "UrgentImportant" [3, 1, 2] 7 sampleStore).rows.find?
        (fun r => r.id = (3 : Int)) = some { taskC with position := 1, updated_at := 7 } ∧
    (reorder_bucket "UrgentImportant" [3, 1, 2] 7 sampleStore).rows.find?
        (fun r => r.id = (1 : Int)) = some { taskA with position := 2, updated_at := 7 } ∧
    (reorder_bucket "UrgentImportant" [3, 1, 2] 7 sampleStore).rows.find?
        (fun r => r.id = (2 : Int)) = some { taskB with position := 3, updated_at := 7 } :=
  ⟨by decide,
   (reorder_assigns_positions "UrgentImportant" [3, 1, 2] 7 sampleStore (by decide)).1
     0 (by decide) taskC rfl,
   (reorder_assigns_positions "UrgentImportant" [3, 1, 2] 7 sampleStore (by decide)).1
     1 (by decide) taskA rfl,
   (reorder_assigns_positions "UrgentImportant" [3, 1, 2] 7 sampleStore (by decide)).1
     2 (by decide) taskB rfl⟩

/-- C4: createTask with a non-empty trimmed title and a recognized bucket
appends a task with completed = false and position = max position in that
bucket + 1 (hence 1 when the bucket is empty). -/
theorem add_task_appends (title bucketStr : String) (now : Nat) (st : Store) (b : Bucket)
    (htitle : trim title ≠ "") (hb : parse_bucket bucketStr = some b) :
    ∃ t : Task,
      add_task title bucketStr now st =
        (AddResult.created t, { rows := st.rows ++ [t], next_id := st.next_id + 1 }) ∧
      t.completed = false ∧
      t.bucket = b ∧
      t.position = max_position st.rows b + 1 ∧
      (st.rows.filter (fun r => r.bucket = b) = [] → t.position = 1) := by
  refine ⟨{ id := st.next_id, title := trim title,
            task_type := if b = Bucket.Today then TaskType.UrgentImportant
                         else TaskType.from_bucket b,
            bucket := b, completed := false, position := max_position st.rows b + 1,
            created_at := now, updated_at := now }, ?_, rfl, rfl, rfl, ?_⟩
  · unfold add_task
    rw [if_neg htitle, hb]
    rfl
  · intro hfil
    show max_position st.rows b + 1 = 1
    unfold max_position
    rw [hfil]
    rfl

/-- Witness for add_task_appends: adding to the non-empty UrgentImportant
bucket of the fixture store yields position 4 = max(1,2,3) + 1. -/
theorem add_task_appends_witness :
    (trim "Buy milk" ≠ "") ∧
    parse_bucket "UrgentImportant" = some Bucket.UrgentImportant ∧
    (∃ t : Task,
      add_task "Buy milk" "UrgentImportant" 2 sampleStore =
        (AddResult.created t,
         { rows := sampleStore.rows ++ [t], next_id := sampleStore.next_id + 1 }) ∧
      t.completed = false ∧
      t.bucket = Bucket.UrgentImportant ∧
      t.position = max_position sampleStore.rows Bucket.UrgentImportant + 1 ∧
      (sampleStore.rows.filter (fun r => r.bucket = Bucket.UrgentImportant) = [] →
        t.position = 1)) :=
  ⟨by decide, rfl,
   add_task_appends "Buy milk" "UrgentImportant" 2 sampleStore Bucket.UrgentImportant
     (by decide) rfl⟩

/-- Store component of a toggle_task result: the matching row has completed
flipped and updated_at refreshed, whether or not the id exists. -/
theorem toggle_task_snd (id : Int) (now : Nat) (st : Store) :
    (toggle_task id now st).2 =
      { st with rows := (updateWhere id
          (fun t => { t with completed := !t.completed, updated_at := now }) st.rows) } := rfl

/-- C7: toggling a stored task answers 200, flips completed and refreshes
updated_at while leaving every other field and every other row unchanged;
toggling twice restores the original completed flag; toggling an absent id
answers 404 and leaves the store unchanged. -/
theorem toggle_task_spec (st : Store) (id : Int) (now1 now2 : Nat) :
    (∀ t : Task, st.rows.find? (fun r => r.id = id) = some t →
      (toggle_task id now1 st).1 = ToggleResult.html ∧
      (toggle_task id now1 st).2.rows.find? (fun r => r.id = id) =
        some { t with completed := !t.completed, updated_at := now1 } ∧
      (∀ u ∈ st.rows, u.id ≠ id → u ∈ (toggle_task id now1 st).2.rows) ∧
      (toggle_task id now2 (toggle_task id now1 st).2).2.rows.find? (fun r => r.id = id) =
        some { t with updated_at := now2 }) ∧
    ((∀ u ∈ st.rows, u.id ≠ id) → toggle_task id now1 st = (ToggleResult.notFound, st)) := by
  constructor
  · intro t hfind
    have hfu := find?_updateWhere id
      (fun u => { u with completed := !u.completed, updated_at := now1 })
      (fun u => rfl) st.rows t hfind
    have hany := any_of_find? id _ _ hfu
    refine ⟨?_, hfu, ?_, ?_⟩
    · show (if (updateWhere id _ st.rows).any (fun r => r.id = id) = true
            then ToggleResult.html else ToggleResult.notFound) = ToggleResult.html
      rw [if_pos hany]
    · intro u hu hne
      exact mem_updateWhere_of_ne id _ st.rows u hu hne
    · rw [toggle_task_snd id now2 (toggle_task id now1 st).2]
      show (updateWhere id _ ((toggle_task id now1 st).2.rows)).find? _ = _
      have hfu2 := find?_updateWhere id
        (fun u => { u with completed := !u.completed, updated_at := now2 })
        (fun u => rfl) (toggle_task id now1 st).2.rows
        { t with completed := !t.completed, updated_at := now1 } hfu
      rw [hfu2]
      congr 1
      simp [Bool.not_not]
  · intro habs
    have hrows := updateWhere_of_absent id
      (fun u => { u with completed := !u.completed, updated_at := now1 }) st.rows habs
    have hany : st.rows.any (fun r => r.id = id) = false :=
      List.any_eq_false.mpr (fun x hx => by simpa using habs x hx)
    show ((if (updateWhere id _ st.rows).any (fun r => r.id = id) = true
           then ToggleResult.html else ToggleResult.notFound),
          ({ st with rows := (updateWhere id
             (fun u => { u with completed := !u.completed, updated_at := now1 })
             st.rows) } : Store)) = (ToggleResult.notFound, st)
    rw [hrows, hany]
    rfl

/-- Witness for toggle_task_spec: toggling task B of the fixture store, and
then toggling it again, restores completed = false with updated_at 6. -/
theorem toggle_task_spec_witness :
    (toggle_task 2 5 sampleStore).1 = ToggleResult.html ∧
    (toggle_task 2 6 (toggle_task 2 5 sampleStore).2).2.rows.find? (fun r => r.id = 2) =
      some { taskB with updated_at := 6 } :=
  ⟨((toggle_task_spec sampleStore 2 5 6).1 taskB rfl).1,
   ((toggle_task_spec sampleStore 2 5 6).1 taskB rfl).2.2.2⟩

/-- C8 counterexample: moving an id absent from the store does not fail
with NotFound; the handler answers 204 No Content — a success status — and
leaves the store unchanged. -/
theorem move_absent_reports_success_cex :
    move_task 42 "Today" none 0 { rows := [taskToday], next_id := 8 } =
      (MoveResult.noContent, { rows := [taskToday], next_id := 8 }) ∧
    (move_task 42 "Today" none 0 { rows := [taskToday], next_id := 8 }).1.status = 204 ∧
    (move_task 42 "Today" none 0 { rows := [taskToday], next_id := 8 }).1.status ≠ 404 := by
  refine ⟨rfl, rfl, by decide⟩

/-- C8 amended: moveTask on an id absent from the store reports success
(204 No Content) instead of NotFound and performs no store mutation. -/
theorem move_task_absent_no_content (id : Int) (bucketStr : String) (oindex : Option Nat)
    (now : Nat) (st : Store) (habs : ∀ t ∈ st.rows, t.id ≠ id) :
    move_task id bucketStr oindex now st = (MoveResult.noContent, st) := by
  unfold move_task
  cases hb : (parse_bucket bucketStr).getD Bucket.UrgentImportant <;>
    simp only [updateWhere_of_absent id _ st.rows habs,
               find?_none_of_absent id st.rows habs]

/-- Witness for move_task_absent_no_content: id 42 does not occur in the
one-task fixture store. -/
theorem move_task_absent_no_content_witness :
    (∀ t ∈ ({ rows := [taskToday], next_id := 8 } : Store).rows, t.id ≠ 42) ∧
    move_task 42 "UrgentImportant" (some 3) 1 { rows := [taskToday], next_id := 8 } =
      (MoveResult.noContent, { rows := [taskToday], next_id := 8 }) :=
  ⟨by decide,
   move_task_absent_no_content 42 "UrgentImportant" (some 3) 1
     { rows := [taskToday], next_id := 8 } (by decide)⟩

/-- C9 counterexample: editing a stored task with a whitespace-only title
neither no-ops nor fails; the handler persists the empty trimmed title and
answers success, so a stored title can become empty. -/
theorem edit_empty_title_persisted_cex :
    (update_task 1 (some "   ") 5 { rows := [taskA], next_id := 2 }).1 =
      UpdateResult.noContent ∧
    (update_task 1 (some "   ") 5 { rows := [taskA], next_id := 2 }).2.rows =
      [{ taskA with title := "", updated_at := 5 }] ∧
    trim "   " = "" := by
  refine ⟨rfl, ?_, by decide⟩
  show updateWhere 1 (fun t => { t with title := trim "   ", updated_at := 5 }) [taskA] =
    [{ taskA with title := "", updated_at := 5 }]
  decide

/-- C9 amended: editTaskTitle with any supplied title always persists the
trimmed title — including the empty string — on the matching row and
answers success; it never rejects an empty title. -/
theorem edit_persists_trimmed_title (id : Int) (title : String) (now : Nat) (st : Store)
    (t : Task) (hfind : st.rows.find? (fun r => r.id = id) = some t) :
    (update_task id (some title) now st).1 = UpdateResult.noContent ∧
    (update_task id (some title) now st).2.rows.find? (fun r => r.id = id) =
      some { t with title := trim title, updated_at := now } := by
  constructor
  · rfl
  · exact find?_updateWhere id
      (fun u => { u with title := trim title, updated_at := now })
      (fun u => rfl) st.rows t hfind

/-- Witness for edit_persists_trimmed_title on a whitespace-only title: the
stored title of task A becomes empty. -/
theorem edit_persists_trimmed_title_witness :
    (update_task 1 (some "   ") 5 { rows := [taskA], next_id := 2 }).1 =
      UpdateResult.noContent ∧
    (update_task 1 (some "   ") 5 { rows := [taskA], next_id := 2 }).2.rows.find?
        (fun r => r.id = 1) = some { taskA with title := trim "   ", updated_at := 5 } :=
  ⟨(edit_persists_trimmed_title 1 "   " 5 { rows := [taskA], next_id := 2 } taskA rfl).1,
   (edit_persists_trimmed_title 1 "   " 5 { rows := [taskA], next_id := 2 } taskA rfl).2⟩

end Eisenpower
